import Mathlib

/-!
Shallow embedding of the `ethereum-private-key-to-address` crate
(`src/lib.rs`) together with models of its external collaborators:
the secp256k1 elliptic-curve primitive (`SecretKey`, `PublicKey`,
`Secp256k1::new`), the Keccak-256 hash (`sha3::Keccak256`) and the
`hex` encoding crate.  Bytes are `Nat` values below 256, byte buffers
are `List Nat`, and machine words are `Nat` reduced modulo `2 ^ 64`
where overflow matters.
-/

/-- The secp256k1 base field prime p. -/
def secpP : Nat := 2 ^ 256 - 2 ^ 32 - 977

/-- The secp256k1 group order n. -/
def secpN : Nat := 0xFFFFFFFFFFFFFFFFFFFFFFFFFFFFFFFEBAAEDCE6AF48A03BBFD25E8CD0364141

/-- x-coordinate of the secp256k1 base point G. -/
def secpGx : Nat := 0x79BE667EF9DCBBAC55A06295CE870B07029BFCDB2DCE28D959F2815B16F81798

/-- y-coordinate of the secp256k1 base point G. -/
def secpGy : Nat := 0x483ADA7726A3C4655DA4FBFC0E1108A8FD17B448A68554199C47D08FFB10D4B8

/-- Multiplication in the secp256k1 base field. -/
def mulP (a b : Nat) : Nat := a * b % secpP

/-- Subtraction in the secp256k1 base field (operands already reduced). -/
def subP (a b : Nat) : Nat := (a + (secpP - b % secpP)) % secpP

/-- Fuel-driven binary modular exponentiation (square-and-multiply) in the
base field; 257 units of fuel cover any 256-bit exponent. -/
def powModAux : Nat → Nat → Nat → Nat
  | 0, _, _ => 1
  | fuel + 1, b, e =>
    if e = 0 then 1 % secpP
    else
      let r := powModAux fuel ((b * b) % secpP) (e / 2)
      if e % 2 = 1 then (b * r) % secpP else r

/-- Modular exponentiation in the secp256k1 base field. -/
def powModP (b e : Nat) : Nat := powModAux 257 b e

/-- Modular inverse in the secp256k1 base field, via Fermat's little theorem. -/
def invP (a : Nat) : Nat := powModP a (secpP - 2)

/-- Jacobian-coordinate point: (X, Y, Z) with Z = 0 encoding the point at
infinity. -/
def Jac : Type := Nat × Nat × Nat

/-- The point at infinity in Jacobian coordinates. -/
def jacInf : Jac := (0, 1, 0)

/-- Jacobian point doubling on secp256k1 (curve coefficient a = 0). -/
def jDouble (P : Jac) : Jac :=
  let (X, Y, Z) := P
  if Z = 0 ∨ Y = 0 then jacInf
  else
    let S := mulP 4 (mulP X (mulP Y Y))
    let M := mulP 3 (mulP X X)
    let X2 := subP (mulP M M) (mulP 2 S)
    let Y2 := subP (mulP M (subP S X2)) (mulP 8 (mulP (mulP Y Y) (mulP Y Y)))
    let Z2 := mulP 2 (mulP Y Z)
    (X2, Y2, Z2)

/-- Mixed addition: Jacobian point plus affine point (x2, y2). -/
def jAddMixed (P : Jac) (x2 y2 : Nat) : Jac :=
  let (X1, Y1, Z1) := P
  if Z1 = 0 then (x2, y2, 1)
  else
    let Z1Z1 := mulP Z1 Z1
    let U2 := mulP x2 Z1Z1
    let S2 := mulP y2 (mulP Z1 Z1Z1)
    let H := subP U2 X1
    let r := subP S2 Y1
    if H = 0 then
      if r = 0 then jDouble P else jacInf
    else
      let HH := mulP H H
      let HHH := mulP H HH
      let V := mulP X1 HH
      let X3 := subP (subP (mulP r r) HHH) (mulP 2 V)
      let Y3 := subP (mulP r (subP V X3)) (mulP Y1 HHH)
      let Z3 := mulP Z1 H
      (X3, Y3, Z3)

/-- Left-to-right double-and-add scalar multiplication of the base point,
consuming the scalar bit by bit from bit index i - 1 downwards. -/
def scalarMulAux : Nat → Nat → Jac → Jac
  | 0, _, acc => acc
  | i + 1, k, acc =>
    let acc1 := jDouble acc
    let acc2 := if (k >>> i) &&& 1 = 1 then jAddMixed acc1 secpGx secpGy else acc1
    scalarMulAux i k acc2

/-- Affine form of k * G on secp256k1; `none` is the point at infinity. -/
def basePointMul (k : Nat) : Option (Nat × Nat) :=
  let (X, Y, Z) := scalarMulAux 256 k jacInf
  if Z = 0 then none
  else
    let zi := invP Z
    let zi2 := mulP zi zi
    some (mulP X zi2, mulP Y (mulP zi zi2))

/-- All ones in 64 bits. -/
def mask64 : Nat := 0xFFFFFFFFFFFFFFFF

/-- Left rotation of a 64-bit lane. -/
def rotl64 (n r : Nat) : Nat :=
  ((n <<< r) ||| (n >>> (64 - r))) &&& mask64

/-- Keccak round constants (decimal values of the 24 iota constants). -/
def keccakRC : List Nat :=
  [1, 32898, 9223372036854808714,
   9223372039002292224, 32907, 2147483649,
   9223372039002292353, 9223372036854808585, 138,
   136, 2147516425, 2147483658,
   2147516555, 9223372036854775947, 9223372036854808713,
   9223372036854808579, 9223372036854808578, 9223372036854775936,
   32778, 9223372039002259466, 9223372039002292353,
   9223372036854808704, 2147483649, 9223372039002292232]

/-- First half of the Keccak rotation offset table. -/
def keccakRotLow : List Nat := [0, 1, 62, 28, 27, 36, 44, 6, 55, 20, 3, 10, 43]

/-- Second half of the Keccak rotation offset table. -/
def keccakRotHigh : List Nat := [25, 39, 41, 45, 15, 21, 8, 18, 2, 61, 56, 14]

/-- Keccak rotation offsets, indexed by lane x + 5 * y. -/
def keccakRot : List Nat := keccakRotLow ++ keccakRotHigh

/-- Source lane index for each destination lane under the rho-pi step. -/
def keccakPiSrc : List Nat :=
  [0, 6, 12, 18, 24, 3, 9, 10, 16, 22, 1, 7, 13, 19, 20, 4, 5, 11, 17, 23,
   2, 8, 14, 15, 21]

/-- Lane access in a 25-lane Keccak state. -/
def lane (s : List Nat) (i : Nat) : Nat := s.getD i 0

/-- Keccak theta step. -/
def keccakTheta (s : List Nat) : List Nat :=
  let C := (List.range 5).map fun x =>
    lane s x ^^^ lane s (x + 5) ^^^ lane s (x + 10) ^^^ lane s (x + 15) ^^^ lane s (x + 20)
  let D := (List.range 5).map fun x =>
    (C.getD ((x + 4) % 5) 0) ^^^ rotl64 (C.getD ((x + 1) % 5) 0) 1
  (List.range 25).map fun i => lane s i ^^^ D.getD (i % 5) 0

/-- Keccak rho and pi steps combined. -/
def keccakRhoPi (s : List Nat) : List Nat :=
  (List.range 25).map fun j =>
    let i := keccakPiSrc.getD j 0
    rotl64 (lane s i) (keccakRot.getD i 0)

/-- Keccak chi step. -/
def keccakChi (s : List Nat) : List Nat :=
  (List.range 25).map fun j =>
    let x := j % 5
    let row := 5 * (j / 5)
    lane s j ^^^ ((mask64 ^^^ lane s ((x + 1) % 5 + row)) &&& lane s ((x + 2) % 5 + row))

/-- One Keccak-f round: theta, rho-pi, chi, then iota with constant rc. -/
def keccakRound (s : List Nat) (rc : Nat) : List Nat :=
  match keccakChi (keccakRhoPi (keccakTheta s)) with
  | a :: rest => (a ^^^ rc) :: rest
  | [] => []

/-- The Keccak-f[1600] permutation (24 rounds). -/
def keccakF (s : List Nat) : List Nat := keccakRC.foldl keccakRound s

/-- Interpret 8 bytes as a little-endian 64-bit lane. -/
def laneOfBytes (bs : List Nat) : Nat := bs.foldr (fun b acc => acc * 256 + b) 0

/-- Serialize a 64-bit lane as 8 little-endian bytes. -/
def laneToBytes (n : Nat) : List Nat :=
  [n &&& 255, (n >>> 8) &&& 255, (n >>> 16) &&& 255, (n >>> 24) &&& 255,
   (n >>> 32) &&& 255, (n >>> 40) &&& 255, (n >>> 48) &&& 255, (n >>> 56) &&& 255]

/-- XOR a 136-byte rate block into the first 17 lanes of the state. -/
def keccakAbsorbBlock (s : List Nat) (block : List Nat) : List Nat :=
  (List.range 25).map fun i =>
    lane s i ^^^ (if i < 17 then laneOfBytes ((block.drop (8 * i)).take 8) else 0)

/-- Absorb the given number of 136-byte blocks. -/
def keccakAbsorbAux : Nat → List Nat → List Nat → List Nat
  | 0, s, _ => s
  | f + 1, s, bytes =>
    keccakAbsorbAux f (keccakF (keccakAbsorbBlock s (bytes.take 136))) (bytes.drop 136)

/-- Keccak multi-rate padding (pad10*1) for rate 136. -/
def keccakPad (msg : List Nat) : List Nat :=
  let padLen := 136 - msg.length % 136
  if padLen = 1 then msg ++ [0x81]
  else msg ++ [0x01] ++ List.replicate (padLen - 2) 0 ++ [0x80]

/-- Keccak-256 of a byte sequence: the pre-NIST Keccak variant used by
Ethereum (model of `sha3::Keccak256`). -/
def keccak256 (msg : List Nat) : List Nat :=
  let padded := keccakPad msg
  let s := keccakAbsorbAux (padded.length / 136) (List.replicate 25 0) padded
  laneToBytes (lane s 0) ++ laneToBytes (lane s 1) ++ laneToBytes (lane s 2) ++
    laneToBytes (lane s 3)

/-- Big-endian fixed-width byte encoding of a natural number. -/
def natToBytesBE : Nat → Nat → List Nat
  | 0, _ => []
  | w + 1, n => natToBytesBE w (n >>> 8) ++ [n &&& 255]

/-- Big-endian interpretation of a byte list as a natural number. -/
def bytesToNat (bs : List Nat) : Nat := bs.foldl (fun acc b => acc * 256 + b) 0

/-- The sixteen lowercase hex digits as used by `hex::encode`: codes 48-57
are the decimal digits and codes 97-102 the letters a through f. -/
def hexChars : List Char :=
  (List.range 16).map fun n => Char.ofNat (if n < 10 then 48 + n else 87 + n)

/-- Lowercase hex digit of a value below 16. -/
def hexDigit (n : Nat) : Char := hexChars.getD (n % 16) '0'

/-- Lowercase hex rendering of a byte list, two characters per byte
(model of `hex::encode`). -/
def hexEncodeChars : List Nat → List Char
  | [] => []
  | b :: rest => hexDigit (b / 16) :: hexDigit (b % 16) :: hexEncodeChars rest

/-- String form of `hex::encode`. -/
def hexEncode (bs : List Nat) : String := String.mk (hexEncodeChars bs)

/-- Value of a single hex character; uppercase accepted, as in secp256k1's
`from_hex`. -/
def hexCharVal (c : Char) : Option Nat :=
  if '0' ≤ c ∧ c ≤ '9' then some (c.toNat - '0'.toNat)
  else if 'a' ≤ c ∧ c ≤ 'f' then some (c.toNat - 'a'.toNat + 10)
  else if 'A' ≤ c ∧ c ≤ 'F' then some (c.toNat - 'A'.toNat + 10)
  else none

/-- Strict hex decoding of a character list into bytes; fails on odd length
or on any non-hex character, never skipping input. -/
def hexDecodeChars : List Char → Option (List Nat)
  | [] => some []
  | [_] => none
  | c1 :: c2 :: rest =>
    match hexCharVal c1, hexCharVal c2, hexDecodeChars rest with
    | some h, some l, some bs => some ((h * 16 + l) :: bs)
    | _, _, _ => none

/-- Model of Rust `str::replace("0x", "")` as used in `PrivateKey::from_str`:
removes every non-overlapping occurrence of the two-character pattern `0x`,
scanning left to right. -/
def replace0x : List Char → List Char
  | '0' :: 'x' :: rest => replace0x rest
  | c :: rest => c :: replace0x rest
  | [] => []

/-- Model of secp256k1 `SecretKey::from_slice`: requires exactly 32 bytes
whose big-endian value k satisfies 0 < k < the group order. -/
def secretKeyFromSlice (bs : List Nat) : Option Nat :=
  if bs.length = 32 then
    let k := bytesToNat bs
    if k = 0 ∨ secpN ≤ k then none else some k
  else none

/-- Model of secp256k1 `SecretKey::from_str`: exactly 64 hex characters
decoding to an in-range 32-byte scalar. -/
def secretKeyFromStr (cs : List Char) : Option Nat :=
  if cs.length = 64 then
    match hexDecodeChars cs with
    | some bs => secretKeyFromSlice bs
    | none => none
  else none

/-- The `PrivateKey` struct of `src/lib.rs`: wraps a validated secret
scalar. -/
structure PrivateKey where
  private_key : Nat
deriving DecidableEq

/-- A private key produced by the validating constructors always holds a
scalar strictly between 0 and the secp256k1 group order. -/
def PrivateKey.Valid (pk : PrivateKey) : Prop :=
  0 < pk.private_key ∧ pk.private_key < secpN

instance (pk : PrivateKey) : Decidable pk.Valid := by
  unfold PrivateKey.Valid
  infer_instance

/-- The recoverable parsing error of the crate (an `anyhow::Error` built
from a context message). -/
structure KeyParsingError where
  msg : String
deriving DecidableEq

instance {e a : Type} [DecidableEq e] [DecidableEq a] : DecidableEq (Except e a)
  | .error x, .error y =>
    if h : x = y then isTrue (by subst h; rfl) else isFalse (fun he => h (by cases he; rfl))
  | .error _, .ok _ => isFalse (fun he => Except.noConfusion he)
  | .ok _, .error _ => isFalse (fun he => Except.noConfusion he)
  | .ok x, .ok y =>
    if h : x = y then isTrue (by subst h; rfl) else isFalse (fun he => h (by cases he; rfl))

/-- Model of the secp256k1 context object created by `Secp256k1::new()`.
The id field records that distinct context objects exist; no mathematical
result depends on it. -/
structure Secp256k1 where
  id : Nat

/-- Model of `Secp256k1::new()`. -/
def Secp256k1.new : Secp256k1 := ⟨0⟩

/-- Model of `PublicKey::from_secret_key` (and of `SecretKey::public_key`):
the base-point multiple of the scalar. -/
def publicKeyFromSecretKey (_ : Secp256k1) (k : Nat) : Option (Nat × Nat) :=
  basePointMul k

/-- Model of `PublicKey::serialize_uncompressed`: the 0x04 format marker
followed by the 32-byte big-endian x and y coordinates, 65 bytes in all.
(The infinity fallback cannot arise for a key accepted by validation.) -/
def serializeUncompressed (pt : Option (Nat × Nat)) : List Nat :=
  let xy := pt.getD (0, 0)
  4 :: natToBytesBE 32 xy.1 ++ natToBytesBE 32 xy.2

/-- `impl FromStr for PrivateKey` (src/lib.rs lines 29-35): replace the
pattern `0x` by the empty string everywhere, then parse via
`SecretKey::from_str`, turning failure into a recoverable error. -/
def PrivateKey.from_str (s : String) : Except KeyParsingError PrivateKey :=
  match secretKeyFromStr (replace0x s.data) with
  | some k => .ok ⟨k⟩
  | none => .error ⟨"Problem parsing private key, check if your private key is correct"⟩

/-- `PrivateKey::from_slice` (src/lib.rs lines 95-99): validating byte-buffer
constructor returning a recoverable error. -/
def PrivateKey.from_slice (bs : List Nat) : Except KeyParsingError PrivateKey :=
  match secretKeyFromSlice bs with
  | some k => .ok ⟨k⟩
  | none => .error ⟨"Failed to parse given private key. Make sure your encoding is correct or try the from_str() method"⟩

/-- Outcome of the panicking `From` conversion impls: either a key, or
process termination via `expect` with the given message. -/
inductive FromOutcome where
  | ok (pk : PrivateKey)
  | abort (msg : String)
deriving DecidableEq

/-- The message of the `expect` call shared by the four `From` impls. -/
def fromExpectMsg : String :=
  "Failed to parse the private key. Check if your encoding to &[u8] is correct and try again. Or you can try the from_str() method"

/-- `impl From<&[u8]> for PrivateKey`: `SecretKey::from_slice(value).expect(..)`,
which panics on any invalid buffer. -/
def fromU8SliceConv (value : List Nat) : FromOutcome :=
  match secretKeyFromSlice value with
  | some k => .ok ⟨k⟩
  | none => .abort fromExpectMsg

/-- `impl From<&[u8; 32]> for PrivateKey`: same panicking body. -/
def fromU8Array32RefConv (value : List Nat) : FromOutcome :=
  match secretKeyFromSlice value with
  | some k => .ok ⟨k⟩
  | none => .abort fromExpectMsg

/-- `impl From<[u8; 32]> for PrivateKey`: same panicking body. -/
def fromU8Array32Conv (value : List Nat) : FromOutcome :=
  match secretKeyFromSlice value with
  | some k => .ok ⟨k⟩
  | none => .abort fromExpectMsg

/-- `impl From<Vec<u8>> for PrivateKey`: same panicking body. -/
def fromVecConv (value : List Nat) : FromOutcome :=
  match secretKeyFromSlice value with
  | some k => .ok ⟨k⟩
  | none => .abort fromExpectMsg

/-- Body of `PrivateKey::address` with the freshly created secp256k1 context
made explicit: serialize the public key uncompressed, strip the leading
format marker, hash with Keccak-256, hex-encode bytes 12..32 of the digest
and prepend the literal `0x`. -/
def PrivateKey.addressCtx (secp : Secp256k1) (pk : PrivateKey) : String :=
  let public_key := publicKeyFromSecretKey secp pk.private_key
  let pkBytes := (serializeUncompressed public_key).drop 1
  let digest := keccak256 pkBytes
  let addr := hexEncode ((digest.drop 12).take 20)
  "0x" ++ addr

/-- `PrivateKey::address` (src/lib.rs lines 82-92). -/
def PrivateKey.address (pk : PrivateKey) : String :=
  PrivateKey.addressCtx Secp256k1.new pk

/-- Body of `PrivateKey::public_key` with the context explicit: hex encoding
of `serialize_uncompressed()[1..]`. -/
def PrivateKey.publicKeyCtx (secp : Secp256k1) (pk : PrivateKey) : String :=
  hexEncode ((serializeUncompressed (publicKeyFromSecretKey secp pk.private_key)).drop 1)

/-- `PrivateKey::public_key` (src/lib.rs lines 103-107). -/
def PrivateKey.public_key (pk : PrivateKey) : String :=
  PrivateKey.publicKeyCtx Secp256k1.new pk

/-- Body of `PrivateKey::public_key_full` with the context explicit: hex
encoding of the whole 65-byte serialization. -/
def PrivateKey.publicKeyFullCtx (secp : Secp256k1) (pk : PrivateKey) : String :=
  hexEncode (serializeUncompressed (publicKeyFromSecretKey secp pk.private_key))

/-- `PrivateKey::public_key_full`. -/
def PrivateKey.public_key_full (pk : PrivateKey) : String :=
  PrivateKey.publicKeyFullCtx Secp256k1.new pk

/-- Body of `PrivateKey::public_key_x` with the context explicit: hex
encoding of `serialize_uncompressed()[1..33]`. -/
def PrivateKey.publicKeyXCtx (secp : Secp256k1) (pk : PrivateKey) : String :=
  hexEncode (((serializeUncompressed (publicKeyFromSecretKey secp pk.private_key)).drop 1).take 32)

/-- `PrivateKey::public_key_x` (src/lib.rs lines 119-123). -/
def PrivateKey.public_key_x (pk : PrivateKey) : String :=
  PrivateKey.publicKeyXCtx Secp256k1.new pk

/-- Body of `PrivateKey::public_key_y` with the context explicit: hex
encoding of `serialize_uncompressed()[33..]`. -/
def PrivateKey.publicKeyYCtx (secp : Secp256k1) (pk : PrivateKey) : String :=
  hexEncode ((serializeUncompressed (publicKeyFromSecretKey secp pk.private_key)).drop 33)

/-- `PrivateKey::public_key_y`. -/
def PrivateKey.public_key_y (pk : PrivateKey) : String :=
  PrivateKey.publicKeyYCtx Secp256k1.new pk

/-- Body of `PrivateKey::public_key_slice` with the context explicit: the raw
65-byte uncompressed serialization. -/
def PrivateKey.publicKeySliceCtx (secp : Secp256k1) (pk : PrivateKey) : List Nat :=
  serializeUncompressed (publicKeyFromSecretKey secp pk.private_key)

/-- `PrivateKey::public_key_slice` (src/lib.rs lines 133-137). -/
def PrivateKey.public_key_slice (pk : PrivateKey) : List Nat :=
  PrivateKey.publicKeySliceCtx Secp256k1.new pk

/-- Address formula as the specification words it: the literal `0x` followed
by the hex encoding of the trailing 20 bytes (offsets 12 through 31) of the
Keccak-256 digest of the uncompressed public key point with its 0x04 format
marker stripped. -/
def specAddress (pk : PrivateKey) : String :=
  "0x" ++ hexEncode
    ((keccak256 ((serializeUncompressed (publicKeyFromSecretKey Secp256k1.new pk.private_key)).drop 1)).drop 12)

/-! Helper lemmas about the embedded primitives. -/

theorem natToBytesBE_length (w : Nat) : ∀ n, (natToBytesBE w n).length = w := by
  induction w with
  | zero => intro n; rfl
  | succ w ih => intro n; simp [natToBytesBE, ih]

theorem serializeUncompressed_length (pt : Option (Nat × Nat)) :
    (serializeUncompressed pt).length = 65 := by
  simp [serializeUncompressed, natToBytesBE_length]

theorem keccak256_length (msg : List Nat) : (keccak256 msg).length = 32 := by
  simp [keccak256, laneToBytes]

theorem hexEncodeChars_length (bs : List Nat) :
    (hexEncodeChars bs).length = 2 * bs.length := by
  induction bs with
  | nil => rfl
  | cons b rest ih => simp [hexEncodeChars, ih]; omega

theorem hexEncodeChars_append (a b : List Nat) :
    hexEncodeChars (a ++ b) = hexEncodeChars a ++ hexEncodeChars b := by
  induction a with
  | nil => rfl
  | cons x rest ih => simp [hexEncodeChars, ih]

theorem hexEncode_length (bs : List Nat) : (hexEncode bs).length = 2 * bs.length := by
  show (hexEncodeChars bs).length = 2 * bs.length
  exact hexEncodeChars_length bs

theorem hexDigit_mem (n : Nat) : hexDigit n ∈ hexChars := by
  have hball : ∀ m < 16, hexChars.getD m '0' ∈ hexChars := by decide
  exact hball (n % 16) (Nat.mod_lt n (by norm_num))

theorem mem_hexEncodeChars (bs : List Nat) (c : Char) :
    c ∈ hexEncodeChars bs → c ∈ hexChars := by
  induction bs with
  | nil => intro h; cases h
  | cons b rest ih =>
    intro h
    rw [hexEncodeChars] at h
    rcases List.mem_cons.mp h with h | h
    · exact h ▸ hexDigit_mem _
    rcases List.mem_cons.mp h with h | h
    · exact h ▸ hexDigit_mem _
    exact ih h

theorem secretKeyFromSlice_some (bs : List Nat) (k : Nat) :
    secretKeyFromSlice bs = some k ↔
      bs.length = 32 ∧ bytesToNat bs = k ∧ 0 < k ∧ k < secpN := by
  unfold secretKeyFromSlice
  split_ifs with h1 h2 <;> simp_all <;> omega

theorem secretKeyFromStr_some (cs : List Char) (k : Nat) :
    secretKeyFromStr cs = some k ↔
      cs.length = 64 ∧ ∃ bs, hexDecodeChars cs = some bs ∧ secretKeyFromSlice bs = some k := by
  unfold secretKeyFromStr
  split_ifs with h1
  · rcases h : hexDecodeChars cs with _ | bs <;> simp_all
  · simp_all

theorem from_str_ok (s : String) (pk : PrivateKey) :
    PrivateKey.from_str s = .ok pk ↔
      secretKeyFromStr (replace0x s.data) = some pk.private_key := by
  unfold PrivateKey.from_str
  rcases h : secretKeyFromStr (replace0x s.data) with _ | k <;> cases pk <;> simp_all

theorem from_slice_ok (bs : List Nat) (pk : PrivateKey) :
    PrivateKey.from_slice bs = .ok pk ↔ secretKeyFromSlice bs = some pk.private_key := by
  unfold PrivateKey.from_slice
  rcases h : secretKeyFromSlice bs with _ | k <;> cases pk <;> simp_all

/-! Claim theorems. -/

/-- C5: `PrivateKey::from_slice` accepts a byte buffer exactly when it has
length 32 and its big-endian value is a scalar strictly between 0 and the
secp256k1 curve order; in particular 31-byte, 33-byte, all-zero and
order-or-larger buffers are rejected with a `KeyParsingError`. -/
theorem c5_from_slice_validation (bs : List Nat) :
    (∃ pk, PrivateKey.from_slice bs = .ok pk) ↔
      bs.length = 32 ∧ 0 < bytesToNat bs ∧ bytesToNat bs < secpN := by
  constructor
  · rintro ⟨pk, hpk⟩
    have h := (from_slice_ok bs pk).mp hpk
    have h2 := (secretKeyFromSlice_some bs pk.private_key).mp h
    exact ⟨h2.1, by omega, by omega⟩
  · rintro ⟨h32, h0, hn⟩
    refine ⟨⟨bytesToNat bs⟩, (from_slice_ok bs ⟨bytesToNat bs⟩).mpr ?_⟩
    exact (secretKeyFromSlice_some bs (bytesToNat bs)).mpr ⟨h32, rfl, h0, hn⟩

/-- C7: if a hex string parses successfully, the same string with a leading
literal `0x` prepended parses to the same `PrivateKey`. -/
theorem c7_leading_0x_stripped (s : String) (pk : PrivateKey)
    (h : PrivateKey.from_str s = .ok pk) :
    PrivateKey.from_str ("0x" ++ s) = .ok pk := h

/-- C9: every derivation is a pure function of the key alone; the freshly
created secp256k1 context passed to each call does not influence any of the
six results. -/
theorem c9_derivations_deterministic (pk : PrivateKey) (c1 c2 : Secp256k1)
    (h : pk.Valid) :
    PrivateKey.addressCtx c1 pk = PrivateKey.addressCtx c2 pk ∧
    PrivateKey.publicKeyCtx c1 pk = PrivateKey.publicKeyCtx c2 pk ∧
    PrivateKey.publicKeyFullCtx c1 pk = PrivateKey.publicKeyFullCtx c2 pk ∧
    PrivateKey.publicKeyXCtx c1 pk = PrivateKey.publicKeyXCtx c2 pk ∧
    PrivateKey.publicKeyYCtx c1 pk = PrivateKey.publicKeyYCtx c2 pk ∧
    PrivateKey.publicKeySliceCtx c1 pk = PrivateKey.publicKeySliceCtx c2 pk :=
  ⟨rfl, rfl, rfl, rfl, rfl, rfl⟩

/-- C9 witness at a concrete key and two distinct context objects. -/
theorem c9_derivations_deterministic_witness :
    (PrivateKey.mk 1).Valid ∧
    (PrivateKey.addressCtx ⟨0⟩ (PrivateKey.mk 1) = PrivateKey.addressCtx ⟨1⟩ (PrivateKey.mk 1) ∧
     PrivateKey.publicKeyCtx ⟨0⟩ (PrivateKey.mk 1) = PrivateKey.publicKeyCtx ⟨1⟩ (PrivateKey.mk 1) ∧
     PrivateKey.publicKeyFullCtx ⟨0⟩ (PrivateKey.mk 1) = PrivateKey.publicKeyFullCtx ⟨1⟩ (PrivateKey.mk 1) ∧
     PrivateKey.publicKeyXCtx ⟨0⟩ (PrivateKey.mk 1) = PrivateKey.publicKeyXCtx ⟨1⟩ (PrivateKey.mk 1) ∧
     PrivateKey.publicKeyYCtx ⟨0⟩ (PrivateKey.mk 1) = PrivateKey.publicKeyYCtx ⟨1⟩ (PrivateKey.mk 1) ∧
     PrivateKey.publicKeySliceCtx ⟨0⟩ (PrivateKey.mk 1) = PrivateKey.publicKeySliceCtx ⟨1⟩ (PrivateKey.mk 1)) :=
  ⟨by decide, c9_derivations_deterministic (PrivateKey.mk 1) ⟨0⟩ ⟨1⟩ (by decide)⟩

theorem hexEncode_append (a b : List Nat) :
    hexEncode (a ++ b) = hexEncode a ++ hexEncode b := by
  unfold hexEncode
  rw [hexEncodeChars_append]
  rfl

theorem serializeUncompressed_eq (pt : Option (Nat × Nat)) :
    serializeUncompressed pt =
      4 :: (natToBytesBE 32 (pt.getD (0, 0)).1 ++ natToBytesBE 32 (pt.getD (0, 0)).2) := rfl

theorem listDropOneCons (a : Nat) (l : List Nat) : (a :: l).drop 1 = l := rfl

theorem listDrop33Cons (a : Nat) (l : List Nat) : (a :: l).drop 33 = l.drop 32 := rfl

theorem hexEncode_cons (b : Nat) (l : List Nat) :
    hexEncode (b :: l) = String.mk [hexDigit (b / 16), hexDigit (b % 16)] ++ hexEncode l := rfl

/-- C3: for every valid key, `address` produces exactly the literal `0x`
followed by the hex encoding of the trailing 20 bytes (offsets 12 through 31)
of the Keccak-256 digest of the marker-stripped uncompressed public key, and
every character after the `0x` is a lowercase hex digit. -/
theorem c3_address_formula (pk : PrivateKey) (h : pk.Valid) :
    pk.address = specAddress pk ∧ ∀ c ∈ (specAddress pk).data.drop 2, c ∈ hexChars := by
  constructor
  · simp only [PrivateKey.address, PrivateKey.addressCtx, specAddress]
    have hlen : ((keccak256 ((serializeUncompressed
        (publicKeyFromSecretKey Secp256k1.new pk.private_key)).drop 1)).drop 12).length ≤ 20 := by
      rw [List.length_drop, keccak256_length]
    rw [List.take_of_length_le hlen]
  · intro c hc
    have hdata : (specAddress pk).data.drop 2 = hexEncodeChars
        ((keccak256 ((serializeUncompressed
          (publicKeyFromSecretKey Secp256k1.new pk.private_key)).drop 1)).drop 12) := rfl
    rw [hdata] at hc
    exact mem_hexEncodeChars _ c hc

/-- C3 witness at the concrete key 1. -/
theorem c3_address_formula_witness :
    (PrivateKey.mk 1).Valid ∧
    ((PrivateKey.mk 1).address = specAddress (PrivateKey.mk 1) ∧
      ∀ c ∈ (specAddress (PrivateKey.mk 1)).data.drop 2, c ∈ hexChars) :=
  ⟨by decide, c3_address_formula (PrivateKey.mk 1) (by decide)⟩

/-- C6: for every valid key the address text has exactly 42 characters, the
public key strings have 128 (no marker), 130 (with marker), 64 (x) and 64 (y)
hex characters, and the raw public key buffer has 65 bytes. -/
theorem c6_length_invariants (pk : PrivateKey) (h : pk.Valid) :
    pk.address.length = 42 ∧ pk.public_key.length = 128 ∧
    pk.public_key_full.length = 130 ∧ pk.public_key_x.length = 64 ∧
    pk.public_key_y.length = 64 ∧ pk.public_key_slice.length = 65 := by
  refine ⟨?_, ?_, ?_, ?_, ?_, ?_⟩
  · simp only [PrivateKey.address, PrivateKey.addressCtx]
    rw [String.length_append, hexEncode_length, List.length_take, List.length_drop,
      keccak256_length]
    decide
  · simp only [PrivateKey.public_key, PrivateKey.publicKeyCtx]
    rw [hexEncode_length, List.length_drop, serializeUncompressed_length]
  · simp only [PrivateKey.public_key_full, PrivateKey.publicKeyFullCtx]
    rw [hexEncode_length, serializeUncompressed_length]
  · simp only [PrivateKey.public_key_x, PrivateKey.publicKeyXCtx]
    rw [hexEncode_length, List.length_take, List.length_drop, serializeUncompressed_length]
    decide
  · simp only [PrivateKey.public_key_y, PrivateKey.publicKeyYCtx]
    rw [hexEncode_length, List.length_drop, serializeUncompressed_length]
  · simp only [PrivateKey.public_key_slice, PrivateKey.publicKeySliceCtx]
    rw [serializeUncompressed_length]

/-- C6 witness at the concrete key 1. -/
theorem c6_length_invariants_witness :
    (PrivateKey.mk 1).Valid ∧
    ((PrivateKey.mk 1).address.length = 42 ∧ (PrivateKey.mk 1).public_key.length = 128 ∧
     (PrivateKey.mk 1).public_key_full.length = 130 ∧ (PrivateKey.mk 1).public_key_x.length = 64 ∧
     (PrivateKey.mk 1).public_key_y.length = 64 ∧ (PrivateKey.mk 1).public_key_slice.length = 65) :=
  ⟨by decide, c6_length_invariants (PrivateKey.mk 1) (by decide)⟩

/-- C10: the public key renderings agree with one another: the 128-character
form is the x-form concatenated with the y-form, the 130-character form is
`04` followed by the 128-character form, and the 130-character form is the
hex encoding of the raw 65-byte buffer. -/
theorem c10_public_key_consistency (pk : PrivateKey) (h : pk.Valid) :
    pk.public_key = pk.public_key_x ++ pk.public_key_y ∧
    pk.public_key_full = "04" ++ pk.public_key ∧
    pk.public_key_full = hexEncode pk.public_key_slice := by
  refine ⟨?_, ?_, rfl⟩
  · simp only [PrivateKey.public_key, PrivateKey.publicKeyCtx, PrivateKey.public_key_x,
      PrivateKey.publicKeyXCtx, PrivateKey.public_key_y, PrivateKey.publicKeyYCtx]
    rw [serializeUncompressed_eq, listDropOneCons, listDrop33Cons,
      List.take_left' (natToBytesBE_length 32 _), List.drop_left' (natToBytesBE_length 32 _),
      hexEncode_append]
  · simp only [PrivateKey.public_key_full, PrivateKey.publicKeyFullCtx,
      PrivateKey.public_key, PrivateKey.publicKeyCtx]
    rw [serializeUncompressed_eq, listDropOneCons, hexEncode_cons]
    have h04 : String.mk [hexDigit (4 / 16), hexDigit (4 % 16)] = "04" := by decide
    rw [h04]

/-- C10 witness at the concrete key 1. -/
theorem c10_public_key_consistency_witness :
    (PrivateKey.mk 1).Valid ∧
    ((PrivateKey.mk 1).public_key = (PrivateKey.mk 1).public_key_x ++ (PrivateKey.mk 1).public_key_y ∧
     (PrivateKey.mk 1).public_key_full = "04" ++ (PrivateKey.mk 1).public_key ∧
     (PrivateKey.mk 1).public_key_full = hexEncode (PrivateKey.mk 1).public_key_slice) :=
  ⟨by decide, c10_public_key_consistency (PrivateKey.mk 1) (by decide)⟩

/-- C8: a key parsed from hex text and the same key parsed from the decoded
raw 32 bytes yield `PrivateKey` values with identical address and public key
derivations. -/
theorem c8_text_bytes_roundtrip (s : String) (bs : List Nat) (pk1 pk2 : PrivateKey)
    (h1 : PrivateKey.from_str s = .ok pk1)
    (hdec : hexDecodeChars (replace0x s.data) = some bs)
    (h2 : PrivateKey.from_slice bs = .ok pk2) :
    pk1.address = pk2.address ∧ pk1.public_key = pk2.public_key ∧
    pk1.public_key_full = pk2.public_key_full ∧
    pk1.public_key_x = pk2.public_key_x ∧ pk1.public_key_y = pk2.public_key_y := by
  have hs := (from_str_ok s pk1).mp h1
  rcases (secretKeyFromStr_some _ _).mp hs with ⟨hlen, bs', hdec', hsl⟩
  rw [hdec] at hdec'
  cases Option.some.inj hdec'
  have hb := (from_slice_ok bs pk2).mp h2
  have hkey : pk1.private_key = pk2.private_key := Option.some.inj (hsl.symm.trans hb)
  have hpk : pk1 = pk2 := by cases pk1; cases pk2; simpa using hkey
  subst hpk
  exact ⟨rfl, rfl, rfl, rfl, rfl⟩

/-- C8 witness with the key from the crate's own test vectors. -/
theorem c8_text_bytes_roundtrip_witness :
    (PrivateKey.from_str "7c852118294e51e653712a81e05800f419141751be58f605c371e15141b007a6" =
        .ok (PrivateKey.mk 0x7c852118294e51e653712a81e05800f419141751be58f605c371e15141b007a6) ∧
      hexDecodeChars
        (replace0x "7c852118294e51e653712a81e05800f419141751be58f605c371e15141b007a6".data) =
        some [0x7c, 0x85, 0x21, 0x18, 0x29, 0x4e, 0x51, 0xe6, 0x53, 0x71, 0x2a, 0x81, 0xe0, 0x58,
          0x00, 0xf4, 0x19, 0x14, 0x17, 0x51, 0xbe, 0x58, 0xf6, 0x05, 0xc3, 0x71, 0xe1, 0x51,
          0x41, 0xb0, 0x07, 0xa6] ∧
      PrivateKey.from_slice [0x7c, 0x85, 0x21, 0x18, 0x29, 0x4e, 0x51, 0xe6, 0x53, 0x71, 0x2a,
          0x81, 0xe0, 0x58, 0x00, 0xf4, 0x19, 0x14, 0x17, 0x51, 0xbe, 0x58, 0xf6, 0x05, 0xc3,
          0x71, 0xe1, 0x51, 0x41, 0xb0, 0x07, 0xa6] =
        .ok (PrivateKey.mk 0x7c852118294e51e653712a81e05800f419141751be58f605c371e15141b007a6)) ∧
    ((PrivateKey.mk 0x7c852118294e51e653712a81e05800f419141751be58f605c371e15141b007a6).address =
        (PrivateKey.mk 0x7c852118294e51e653712a81e05800f419141751be58f605c371e15141b007a6).address ∧
      (PrivateKey.mk 0x7c852118294e51e653712a81e05800f419141751be58f605c371e15141b007a6).public_key =
        (PrivateKey.mk 0x7c852118294e51e653712a81e05800f419141751be58f605c371e15141b007a6).public_key ∧
      (PrivateKey.mk 0x7c852118294e51e653712a81e05800f419141751be58f605c371e15141b007a6).public_key_full =
        (PrivateKey.mk 0x7c852118294e51e653712a81e05800f419141751be58f605c371e15141b007a6).public_key_full ∧
      (PrivateKey.mk 0x7c852118294e51e653712a81e05800f419141751be58f605c371e15141b007a6).public_key_x =
        (PrivateKey.mk 0x7c852118294e51e653712a81e05800f419141751be58f605c371e15141b007a6).public_key_x ∧
      (PrivateKey.mk 0x7c852118294e51e653712a81e05800f419141751be58f605c371e15141b007a6).public_key_y =
        (PrivateKey.mk 0x7c852118294e51e653712a81e05800f419141751be58f605c371e15141b007a6).public_key_y) := by
  have h1 : PrivateKey.from_str "7c852118294e51e653712a81e05800f419141751be58f605c371e15141b007a6" =
      .ok (PrivateKey.mk 0x7c852118294e51e653712a81e05800f419141751be58f605c371e15141b007a6) := by
    decide
  have h2 : hexDecodeChars
      (replace0x "7c852118294e51e653712a81e05800f419141751be58f605c371e15141b007a6".data) =
      some [0x7c, 0x85, 0x21, 0x18, 0x29, 0x4e, 0x51, 0xe6, 0x53, 0x71, 0x2a, 0x81, 0xe0, 0x58,
        0x00, 0xf4, 0x19, 0x14, 0x17, 0x51, 0xbe, 0x58, 0xf6, 0x05, 0xc3, 0x71, 0xe1, 0x51,
        0x41, 0xb0, 0x07, 0xa6] := by decide
  have h3 : PrivateKey.from_slice [0x7c, 0x85, 0x21, 0x18, 0x29, 0x4e, 0x51, 0xe6, 0x53, 0x71,
      0x2a, 0x81, 0xe0, 0x58, 0x00, 0xf4, 0x19, 0x14, 0x17, 0x51, 0xbe, 0x58, 0xf6, 0x05, 0xc3,
      0x71, 0xe1, 0x51, 0x41, 0xb0, 0x07, 0xa6] =
      .ok (PrivateKey.mk 0x7c852118294e51e653712a81e05800f419141751be58f605c371e15141b007a6) := by
    decide
  exact ⟨⟨h1, h2, h3⟩, c8_text_bytes_roundtrip _ _ _ _ h1 h2 h3⟩

/-- C7 witness: the first crate test key, with and without the `0x` marker. -/
theorem c7_leading_0x_stripped_witness :
    PrivateKey.from_str "ac0974bec39a17e36ba4a6b4d238ff944bacb478cbed5efcae784d7bf4f2ff80" =
      .ok (PrivateKey.mk 0xac0974bec39a17e36ba4a6b4d238ff944bacb478cbed5efcae784d7bf4f2ff80) ∧
    PrivateKey.from_str
        ("0x" ++ "ac0974bec39a17e36ba4a6b4d238ff944bacb478cbed5efcae784d7bf4f2ff80") =
      .ok (PrivateKey.mk 0xac0974bec39a17e36ba4a6b4d238ff944bacb478cbed5efcae784d7bf4f2ff80) := by
  have h : PrivateKey.from_str "ac0974bec39a17e36ba4a6b4d238ff944bacb478cbed5efcae784d7bf4f2ff80" =
      .ok (PrivateKey.mk 0xac0974bec39a17e36ba4a6b4d238ff944bacb478cbed5efcae784d7bf4f2ff80) := by
    decide
  exact ⟨h, c7_leading_0x_stripped _ _ h⟩

/-- C1: the parser built on `str::replace("0x", "")` strips a NON-leading
occurrence of `0x` as well.  The 66-character input below does not start
with `0x` and is not valid hex (so under the claim it would have to be
rejected), yet `from_str` accepts it, returning the key whose canonical hex
has the interior `0x` deleted. -/
theorem c1_nonleading_0x_stripped :
    PrivateKey.from_str "ac0x0974bec39a17e36ba4a6b4d238ff944bacb478cbed5efcae784d7bf4f2ff80" =
      .ok (PrivateKey.mk 0xac0974bec39a17e36ba4a6b4d238ff944bacb478cbed5efcae784d7bf4f2ff80) ∧
    "ac0x0974bec39a17e36ba4a6b4d238ff944bacb478cbed5efcae784d7bf4f2ff80".data.take 2 =
      ['a', 'c'] ∧
    hexDecodeChars
      "ac0x0974bec39a17e36ba4a6b4d238ff944bacb478cbed5efcae784d7bf4f2ff80".data = none := by
  decide

/-- C2: each of the four `From` conversion impls runs `expect` and therefore
terminates the process on a buffer of wrong length or out-of-range value,
instead of returning an inspectable `KeyParsingError`; only
`PrivateKey::from_slice` returns the recoverable error. -/
theorem c2_from_impls_abort :
    fromU8SliceConv (List.replicate 31 0) = .abort fromExpectMsg ∧
    fromVecConv (List.replicate 33 0) = .abort fromExpectMsg ∧
    fromU8Array32Conv (List.replicate 32 0) = .abort fromExpectMsg ∧
    fromU8Array32RefConv (List.replicate 32 0) = .abort fromExpectMsg ∧
    PrivateKey.from_slice (List.replicate 31 0) =
      .error (KeyParsingError.mk "Failed to parse given private key. Make sure your encoding is correct or try the from_str() method") := by
  decide

set_option maxRecDepth 10000 in
/-- C4: the two known-vector scenarios: parsing each documented private key
and deriving its address reproduces the documented address string. -/
theorem c4_known_vectors :
    (PrivateKey.from_str
        "ac0974bec39a17e36ba4a6b4d238ff944bacb478cbed5efcae784d7bf4f2ff80").map
        PrivateKey.address =
      .ok "0xf39fd6e51aad88f6f4ce6ab8827279cfffb92266" ∧
    (PrivateKey.from_str
        "0x59c6995e998f97a5a0044966f0945389dc9e86dae88c7a8412f4603b6b78690d").map
        PrivateKey.address =
      .ok "0x70997970c51812dc3a010c7d01b50e0d17dc79c8" := by
  decide
